import Mathlib

/-!
Verification of the karsu-ui data-fetching core.

Shallow embedding of:
* `src/hooks/use-sensor-readings.ts` — the polling coordinator
  (`sanitizePositiveInteger`, the `fetchData` lifecycle, `setPage`,
  `setLimit`, `refetch`);
* `src/lib/api/sensor-readings.ts` — the transport function
  `fetchSensorReadings`;
* `src/components/sensor-readings/sensor-readings-dashboard.tsx` — the pure
  statistics aggregator `computeStatistics`.

Modelling conventions:
* A JavaScript `number` is `ENum`: a finite rational, `NaN`, or a signed
  infinity.  Exact rationals stand in for IEEE doubles: comparisons between
  doubles are exact, so guard checks and candidate selection are faithful,
  but IEEE rounding and overflow of arithmetic results are outside this
  model.
* The asynchronous `fetchData` body is split into its two synchronous
  phases: `startFetch` (everything before the `await`) and `completeFetch`
  (everything after the `await` resumes, i.e. the success path, the `catch`
  and the `finally`).  An `AbortController` is represented by a numeric id;
  the state records the id held by `controllerRef` and the set of ids on
  which `abort()` has been called.
* `Date.parse` is an external browser builtin; it is passed as a parameter
  `parse : String → Option ℤ` (`none` models a `NaN` result).
-/

namespace Karsu

/-- A JavaScript number: finite value, NaN, or a signed infinity. -/
inductive ENum where
  | fin (q : ℚ)
  | nan
  | posInf
  | negInf
deriving DecidableEq, Repr

/-- `Number.isFinite`. -/
def ENum.isFinite : ENum → Bool
  | .fin _ => true
  | _ => false

/-- `Number.isNaN`. -/
def ENum.isNaN : ENum → Bool
  | .nan => true
  | _ => false

/-- A JavaScript `Error` value, with its `name` and `message`. -/
structure JSError where
  name : String
  message : String
deriving DecidableEq, Repr

/-- `SensorReading` from `src/lib/api/sensor-readings.ts`. -/
structure SensorReading where
  timestamp : String
  moisture : ENum
deriving DecidableEq, Repr

/-- `PaginationMeta` from `src/lib/api/sensor-readings.ts`. -/
structure PaginationMeta where
  totalItems : ENum
  totalPages : ENum
  page : ENum
  limit : ENum
deriving DecidableEq, Repr

/-- `SensorReadingsResponse` from `src/lib/api/sensor-readings.ts`.
`meta` is an `Option` because the shape check in the transport accepts a
`null` meta (JS `typeof null` is `"object"`). -/
structure SensorReadingsResponse where
  data : List SensorReading
  meta : Option PaginationMeta
deriving DecidableEq, Repr

/-- `sanitizePositiveInteger` (src/hooks/use-sensor-readings.ts, lines
18–34).  `Math.floor` on a finite JS number is `Int.floor` on the
rational. -/
def sanitizePositiveInteger (value : ENum) (fallback : ℤ) (allowZero : Bool) : ℤ :=
  match value with
  | .fin q =>
      let normalized : ℤ := ⌊q⌋
      if allowZero then
        if normalized < 0 then fallback else normalized
      else
        if normalized ≤ 0 then fallback else normalized
  | _ => fallback

/-- The `FetchRequest` record passed to `fetchData` (src/hooks, lines
12–16). -/
structure FetchRequest where
  page : ℤ
  limit : ℤ
  withLoading : Bool
deriving DecidableEq, Repr

/-- The coordinator's state: the React state cells of `useSensorReadings`
(`page`, `limit`, `data`, `meta`, `isLoading`, `isRefreshing`, `error`)
together with the request-identity bookkeeping (`controllerRef`, modelled
as `currentId`, and the set of aborted controller ids). -/
structure CoordinatorState where
  page : ℤ
  limit : ℤ
  data : List SensorReading
  meta : Option PaginationMeta
  isLoading : Bool
  isRefreshing : Bool
  error : Option JSError
  currentId : Option ℕ
  aborted : List ℕ
deriving DecidableEq, Repr

/-- The initial state of `useSensorReadings` (src/hooks, lines 66–79):
`page` and `limit` are sanitized from the options (`allowZero` is `true`
for the page), `data` starts empty, `isLoading` starts as
`Boolean(enabled)`, and no request is in flight. -/
def initState (initialPage initialLimit : ENum) (enabled : Bool) : CoordinatorState :=
  { page := sanitizePositiveInteger initialPage 1 true
    limit := sanitizePositiveInteger initialLimit 20 false
    data := []
    meta := none
    isLoading := enabled
    isRefreshing := false
    error := none
    currentId := none
    aborted := [] }

/-- The outcome with which a single fetch settles: the transport promise
either fulfills with a response or rejects with an error.  A cancelled
request rejects with an error named `"AbortError"`. -/
inductive FetchOutcome where
  | success (resp : SensorReadingsResponse)
  | failure (e : JSError)
deriving DecidableEq, Repr

/-- The synchronous prefix of `fetchData` (src/hooks, lines 83–91): abort
the previous controller, install a fresh controller `id`, and raise the
loading or the refreshing flag according to `withLoading`. -/
def startFetch (id : ℕ) (withLoading : Bool) (s : CoordinatorState) : CoordinatorState :=
  let s1 :=
    match s.currentId with
    | some prev => { s with aborted := prev :: s.aborted }
    | none => s
  let s2 := { s1 with currentId := some id }
  if withLoading then
    { s2 with isLoading := true }
  else
    { s2 with isRefreshing := true }

/-- The `finally` block of `fetchData` (src/hooks, lines 116–128).  The
source reads: `isLatestRequest` guards the `setIsLoading(false)` write,
but both the `else if (isLatestRequest)` branch and the trailing `else`
branch perform `setIsRefreshing(false)`; the duplicated branches are kept
verbatim. -/
def finallyStep (id : ℕ) (withLoading : Bool) (s : CoordinatorState) : CoordinatorState :=
  let isLatestRequest := s.currentId = some id
  if withLoading then
    if isLatestRequest then { s with isLoading := false } else s
  else
    if isLatestRequest then { s with isRefreshing := false }
    else { s with isRefreshing := false }

/-- The continuation of `fetchData` after the transport settles
(src/hooks, lines 100–128): on success, a response whose controller was
aborted or superseded is discarded; otherwise `data`, `meta` are written
and `error` is cleared.  On rejection, an `"AbortError"` is discarded and
any other error is stored.  The `finally` block always runs.  Returns the
new state and the promise's resolution value. -/
def completeFetch (id : ℕ) (withLoading : Bool) (outcome : FetchOutcome)
    (s : CoordinatorState) : CoordinatorState × Option SensorReadingsResponse :=
  match outcome with
  | .success resp =>
      if id ∈ s.aborted ∨ s.currentId ≠ some id then
        (finallyStep id withLoading s, none)
      else
        (finallyStep id withLoading
          { s with data := resp.data, meta := resp.meta, error := none }, some resp)
  | .failure e =>
      if e.name = "AbortError" then
        (finallyStep id withLoading s, none)
      else
        (finallyStep id withLoading { s with error := some e }, none)

/-- The argument of `setPage` / `setLimit`: a plain number or an updater
function of the current value. -/
inductive SetterArg where
  | value (v : ENum)
  | updater (f : ℤ → ENum)

/-- `setPage` (src/hooks, lines 183–193): resolve the updater against the
current page, then sanitize with fallback `1` and `allowZero := true`. -/
def applySetPage (arg : SetterArg) (s : CoordinatorState) : CoordinatorState :=
  let nextValue :=
    match arg with
    | .value v => v
    | .updater f => f s.page
  { s with page := sanitizePositiveInteger nextValue 1 true }

/-- `setLimit` (src/hooks, lines 195–205): resolve the updater against the
current limit, then sanitize with fallback `20`. -/
def applySetLimit (arg : SetterArg) (s : CoordinatorState) : CoordinatorState :=
  let nextValue :=
    match arg with
    | .value v => v
    | .updater f => f s.limit
  { s with limit := sanitizePositiveInteger nextValue 20 false }

/-- One pagination mutation issued through the coordinator's setters. -/
inductive QueryOp where
  | setPage (arg : SetterArg)
  | setLimit (arg : SetterArg)

/-- Apply one pagination mutation. -/
def applyQueryOp (s : CoordinatorState) (op : QueryOp) : CoordinatorState :=
  match op with
  | .setPage a => applySetPage a s
  | .setLimit a => applySetLimit a s

/-- `refetch` (src/hooks, lines 207–211): the request it issues —
`fetchData({ page, limit, withLoading: false })` with the current page and
limit. -/
def refetchRequest (s : CoordinatorState) : FetchRequest :=
  { page := s.page, limit := s.limit, withLoading := false }

/-! ## Transport: `fetchSensorReadings` (src/lib/api/sensor-readings.ts) -/

/-- A JSON-ish JavaScript value, as produced by `response.json()`. -/
inductive JSValue where
  | null
  | undefined
  | bool (b : Bool)
  | num (n : ENum)
  | str (s : String)
  | arr (elems : List JSValue)
  | obj (fields : List (String × JSValue))

/-- JS truthiness (the `!payload` check). -/
def JSValue.truthy : JSValue → Bool
  | .null => false
  | .undefined => false
  | .bool b => b
  | .num (.fin q) => !(q == 0)
  | .num .nan => false
  | .num .posInf => true
  | .num .negInf => true
  | .str s => !(s == "")
  | .arr _ => true
  | .obj _ => true

/-- Property access `v.name`: field lookup on an object, `undefined` on
everything else that the transport can reach (the falsy values `null` and
`undefined` are short-circuited away before any access in the source). -/
def JSValue.getField (v : JSValue) (name : String) : JSValue :=
  match v with
  | .obj fields =>
      match fields.lookup name with
      | some w => w
      | none => .undefined
  | _ => .undefined

/-- `Array.isArray`. -/
def JSValue.isArray : JSValue → Bool
  | .arr _ => true
  | _ => false

/-- The JS check `typeof v === "object"`: true for objects, arrays — and
`null`, since `typeof null` is `"object"`. -/
def JSValue.typeofIsObject : JSValue → Bool
  | .null => true
  | .arr _ => true
  | .obj _ => true
  | _ => false

/-- What the `fetch` call hands back: the status line and the result of
the `response.json()` step (`none` when the body is not decodable JSON, in
which case `json()` rejects). -/
structure TransportResponse where
  status : ℕ
  statusText : String
  body : Option JSValue

/-- `response.ok` per the WHATWG fetch spec: status in 200–299. -/
def responseOk (status : ℕ) : Bool :=
  Nat.ble 200 status && Nat.ble status 299

/-- JS number-to-string coercion used by `String(page)`.  The finite case
approximates JS decimal formatting with rational `toString`; the claims
only inspect which parameters are present, never the digits. -/
def ENum.jsToString : ENum → String
  | .nan => "NaN"
  | .posInf => "Infinity"
  | .negInf => "-Infinity"
  | .fin q => toString q

/-- The query parameters `fetchSensorReadings` puts on the request URL
(src/lib/api/sensor-readings.ts, lines 28–41).  TS default parameters:
an absent `page` defaults to `1`, an absent `limit` to `20`.  The source
guard is `typeof page === "number" && !Number.isNaN(page)`; in this model
the defaulted argument is always a number, so only the NaN check
remains. -/
def buildSearchParams (pageArg limitArg : Option ENum) : List (String × String) :=
  let page := pageArg.getD (.fin 1)
  let limit := limitArg.getD (.fin 20)
  (if !page.isNaN then [("page", page.jsToString)] else []) ++
    (if !limit.isNaN then [("limit", limit.jsToString)] else [])

/-- The settling behaviour of `fetchSensorReadings`
(src/lib/api/sensor-readings.ts, lines 43–65) once the `fetch` promise has
fulfilled with `resp`: throw on `!response.ok`, then decode the body
(`response.json()` rejecting is modelled by `body = none`, surfaced as a
`SyntaxError`), then the shape check, then resolve with the payload. -/
def fetchSensorReadings (resp : TransportResponse) : Except JSError JSValue :=
  if !responseOk resp.status then
    .error { name := "Error"
             message := "Failed to fetch sensor readings: " ++ toString resp.status
               ++ " " ++ resp.statusText }
  else
    match resp.body with
    | none => .error { name := "SyntaxError", message := "Unexpected end of JSON input" }
    | some payload =>
        if !payload.truthy || !(payload.getField "data").isArray
            || !(payload.getField "meta").typeofIsObject then
          .error { name := "Error", message := "Invalid sensor readings response shape" }
        else
          .ok payload

/-! ## Aggregator: `computeStatistics`
(src/components/sensor-readings/sensor-readings-dashboard.tsx, lines
100–160).  The `±Infinity` sentinels of the accumulators are encoded as
`none`: `latestTime = none` is the initial `NEGATIVE_INFINITY`,
`earliestTime = none` the initial `POSITIVE_INFINITY`, and `min`/`max`
equal to `none` are the not-yet-assigned `±Infinity` starting values. -/

/-- The loop accumulator of `computeStatistics` (lines 101–108). -/
structure StatsAcc where
  latest : Option SensorReading
  earliest : Option SensorReading
  latestTime : Option ℤ
  earliestTime : Option ℤ
  sum : ℚ
  count : ℕ
  min : Option ℚ
  max : Option ℚ
deriving DecidableEq, Repr

/-- The accumulator's initial value (lines 101–108). -/
def initAcc : StatsAcc :=
  { latest := none, earliest := none, latestTime := none, earliestTime := none
    sum := 0, count := 0, min := none, max := none }

/-- `parsedTime > latestTime` where `none` encodes `-Infinity`. -/
def gtLatest (t : ℤ) (latestTime : Option ℤ) : Bool :=
  match latestTime with
  | none => true
  | some a => decide (a < t)

/-- `parsedTime < earliestTime` where `none` encodes `+Infinity`. -/
def ltEarliest (t : ℤ) (earliestTime : Option ℤ) : Bool :=
  match earliestTime with
  | none => true
  | some a => decide (t < a)

/-- The moisture half of the loop body (lines 113–122): when `moisture` is
a finite number, fold it into `sum`/`count`/`min`/`max`. -/
def moistureFold (acc : StatsAcc) (r : SensorReading) : StatsAcc :=
  match r.moisture with
  | .fin m =>
      { acc with
        sum := acc.sum + m
        count := acc.count + 1
        min :=
          match acc.min with
          | none => some m
          | some mn => if m < mn then some m else some mn
        max :=
          match acc.max with
          | none => some m
          | some mx => if mx < m then some m else some mx }
  | _ => acc

/-- One iteration of the `for` loop of `computeStatistics` (lines
110–135): the moisture fold, then `Date.parse` and the strict
latest/earliest comparisons. -/
def stepReading (parse : String → Option ℤ) (acc : StatsAcc) (r : SensorReading) : StatsAcc :=
  let acc1 := moistureFold acc r
  match parse r.timestamp with
  | none => acc1
  | some t =>
      let acc2 :=
        if gtLatest t acc1.latestTime then
          { acc1 with latestTime := some t, latest := some r }
        else acc1
      if ltEarliest t acc2.earliestTime then
        { acc2 with earliestTime := some t, earliest := some r }
      else acc2

/-- `SensorStatistics` (dashboard lines 33–42). -/
structure SensorStatistics where
  average : Option ℚ
  min : Option ℚ
  max : Option ℚ
  range : Option ℚ
  trend : Option ℚ
  latest : Option SensorReading
  earliest : Option SensorReading
  lastUpdated : Option ℤ
deriving DecidableEq, Repr

/-- The post-pass guards `latestMoisture` / `earliestMoisture` (lines
137–144): the candidate's moisture when it is a finite number. -/
def finiteMoisture : Option SensorReading → Option ℚ
  | some r =>
      match r.moisture with
      | .fin m => some m
      | _ => none
  | none => none

/-- `computeStatistics` (dashboard lines 100–160): fold the loop body over
the readings, then assemble the statistics.  When `count > 0` both
`min` and `max` accumulators are necessarily assigned; the catch-all arm
of `range` is unreachable.  `lastUpdated` is
`latestTime > -Infinity ? latestTime : null`, which in the `none`-sentinel
encoding is `latestTime` itself. -/
def computeStatistics (parse : String → Option ℤ) (data : List SensorReading) :
    SensorStatistics :=
  let acc := data.foldl (stepReading parse) initAcc
  let latestMoisture := finiteMoisture acc.latest
  let earliestMoisture := finiteMoisture acc.earliest
  { average := if 0 < acc.count then some (acc.sum / (acc.count : ℚ)) else none
    min := if 0 < acc.count then acc.min else none
    max := if 0 < acc.count then acc.max else none
    range :=
      if 0 < acc.count then
        match acc.max, acc.min with
        | some mx, some mn => some (mx - mn)
        | _, _ => none
      else none
    trend :=
      match latestMoisture, earliestMoisture with
      | some lm, some em => some (lm - em)
      | _, _ => none
    latest := acc.latest
    earliest := acc.earliest
    lastUpdated := acc.latestTime }

/-- Does a reading pass the moisture guard of the loop (a finite
number)? -/
def hasFiniteMoisture (r : SensorReading) : Bool :=
  match r.moisture with
  | .fin _ => true
  | _ => false

/-- All parseable timestamps of a window, in iteration order. -/
def parsedTimes (parse : String → Option ℤ) (data : List SensorReading) : List ℤ :=
  data.filterMap (fun r => parse r.timestamp)

/-- The maximal parseable timestamp of a window (spec-side definition). -/
def maxTime? (parse : String → Option ℤ) : List SensorReading → Option ℤ
  | [] => none
  | r :: rest =>
      match parse r.timestamp, maxTime? parse rest with
      | none, m => m
      | some t, none => some t
      | some t, some m => some (Max.max t m)

/-- The minimal parseable timestamp of a window (spec-side definition). -/
def minTime? (parse : String → Option ℤ) : List SensorReading → Option ℤ
  | [] => none
  | r :: rest =>
      match parse r.timestamp, minTime? parse rest with
      | none, m => m
      | some t, none => some t
      | some t, some m => some (Min.min t m)

/-- Spec-side: the first reading, in iteration order, whose parsed
timestamp attains the maximum — the reading a first-seen-wins tie rule
must retain as `latest`. -/
def firstLatest (parse : String → Option ℤ) (data : List SensorReading) :
    Option SensorReading :=
  (maxTime? parse data).bind
    (fun m => data.find? (fun r => decide (parse r.timestamp = some m)))

/-- Spec-side: the first reading, in iteration order, whose parsed
timestamp attains the minimum. -/
def firstEarliest (parse : String → Option ℤ) (data : List SensorReading) :
    Option SensorReading :=
  (minTime? parse data).bind
    (fun m => data.find? (fun r => decide (parse r.timestamp = some m)))

/-! ## Helper lemmas -/

/-- The `finally` block never touches `data`, `meta`, `error`, `page`,
`limit`, `currentId` or `aborted`. -/
lemma finallyStep_preserves (id : ℕ) (wl : Bool) (s : CoordinatorState) :
    (finallyStep id wl s).data = s.data ∧ (finallyStep id wl s).meta = s.meta ∧
    (finallyStep id wl s).error = s.error ∧ (finallyStep id wl s).page = s.page ∧
    (finallyStep id wl s).limit = s.limit ∧
    (finallyStep id wl s).currentId = s.currentId ∧
    (finallyStep id wl s).aborted = s.aborted := by
  unfold finallyStep
  dsimp only
  split <;> split <;> exact ⟨rfl, rfl, rfl, rfl, rfl, rfl, rfl⟩

/-- On a stale request (`controllerRef` no longer holds its controller)
the `finally` block leaves a loading request's state untouched and clears
`isRefreshing` for a background request. -/
lemma finallyStep_stale (id : ℕ) (wl : Bool) (s : CoordinatorState)
    (h : s.currentId ≠ some id) :
    finallyStep id wl s = if wl then s else { s with isRefreshing := false } := by
  unfold finallyStep
  cases wl <;> simp [h]

/-! ## C1: the commit rule -/

/-- C1 counterexample: request 0 (a background refresh) is superseded by
request 1, yet its completion still mutates the state — it flips
`isRefreshing` from `true` to `false`.  This refutes "no state mutation at
all, not even flipping its own loading or refreshing flag off". -/
theorem superseded_refresh_still_clears_isRefreshing :
    (startFetch 1 true (startFetch 0 false (initState (.fin 1) (.fin 20) true))).currentId
        ≠ some 0 ∧
    (startFetch 1 true (startFetch 0 false (initState (.fin 1) (.fin 20) true))).isRefreshing
        = true ∧
    (completeFetch 0 false (.failure ⟨"AbortError", "The user aborted a request."⟩)
        (startFetch 1 true
          (startFetch 0 false (initState (.fin 1) (.fin 20) true)))).1.isRefreshing
        = false ∧
    (completeFetch 0 false (.failure ⟨"AbortError", "The user aborted a request."⟩)
          (startFetch 1 true (startFetch 0 false (initState (.fin 1) (.fin 20) true)))).1
        ≠ startFetch 1 true (startFetch 0 false (initState (.fin 1) (.fin 20) true)) := by
  decide

/-- C1 (amended): only the most recently issued request's response may
write `data`/`meta`/`error`/`isLoading`.  A superseded request that
completes — with a success that is discarded, or with the cancellation
signal that supersession's `abort()` produces — writes none of `data`,
`meta`, `error`, `isLoading`, and resolves to `null`; a superseded
*loading* request causes no state mutation at all, but a superseded
*background-refresh* request still flips `isRefreshing` off in its
`finally` block. -/
theorem stale_completion_touches_only_isRefreshing (s : CoordinatorState) (id : ℕ)
    (wl : Bool) (outcome : FetchOutcome) (hstale : s.currentId ≠ some id)
    (hcancel : ∀ e, outcome = .failure e → e.name = "AbortError") :
    completeFetch id wl outcome s =
      (if wl then s else { s with isRefreshing := false }, none) := by
  cases outcome with
  | success resp =>
      unfold completeFetch
      dsimp only
      rw [if_pos (Or.inr hstale), finallyStep_stale id wl s hstale]
  | failure e =>
      have he : e.name = "AbortError" := hcancel e rfl
      unfold completeFetch
      dsimp only
      rw [if_pos he, finallyStep_stale id wl s hstale]

/-- Witness for the amended C1 at a concrete superseded refresh. -/
theorem stale_completion_touches_only_isRefreshing_witness :
    completeFetch 0 false (.failure ⟨"AbortError", "The user aborted a request."⟩)
        (startFetch 1 true (startFetch 0 false (initState (.fin 1) (.fin 20) true))) =
      ({ startFetch 1 true (startFetch 0 false (initState (.fin 1) (.fin 20) true)) with
          isRefreshing := false }, none) := by
  have h := stale_completion_touches_only_isRefreshing
    (startFetch 1 true (startFetch 0 false (initState (.fin 1) (.fin 20) true))) 0 false
    (.failure ⟨"AbortError", "The user aborted a request."⟩) (by decide)
    (fun e he => by cases he; rfl)
  simpa using h

/-! ## C2: pagination-state sanitization -/

/-- C2 counterexample: `setPage(0)` yields page `0` — the sanitizer is
called with `allowZero: true` for the page, so a zero input is kept, not
replaced by the fallback `1`; the page is not "always at least 1". -/
theorem setPage_zero_keeps_zero :
    (applySetPage (.value (.fin 0)) (initState (.fin 1) (.fin 20) true)).page = 0 ∧
    ¬(1 ≤ (applySetPage (.value (.fin 0)) (initState (.fin 1) (.fin 20) true)).page) := by
  decide

/-- Unfolding of the sanitizer at a finite value with `allowZero`. -/
lemma sanitize_fin_allowZero (q : ℚ) (fb : ℤ) :
    sanitizePositiveInteger (.fin q) fb true = if ⌊q⌋ < 0 then fb else ⌊q⌋ := rfl

/-- Unfolding of the sanitizer at a finite value without `allowZero`. -/
lemma sanitize_fin_noZero (q : ℚ) (fb : ℤ) :
    sanitizePositiveInteger (.fin q) fb false = if ⌊q⌋ ≤ 0 then fb else ⌊q⌋ := rfl

lemma sanitize_allowZero_nonneg (v : ENum) (fb : ℤ) (h : 0 ≤ fb) :
    0 ≤ sanitizePositiveInteger v fb true := by
  cases v with
  | fin q => rw [sanitize_fin_allowZero]; split <;> omega
  | nan => exact h
  | posInf => exact h
  | negInf => exact h

lemma sanitize_noZero_pos (v : ENum) (fb : ℤ) (h : 0 < fb) :
    0 < sanitizePositiveInteger v fb false := by
  cases v with
  | fin q => rw [sanitize_fin_noZero]; split <;> omega
  | nan => exact h
  | posInf => exact h
  | negInf => exact h

lemma queryOps_bounds (ops : List QueryOp) (s : CoordinatorState)
    (hp : 0 ≤ s.page) (hl : 1 ≤ s.limit) :
    0 ≤ (ops.foldl applyQueryOp s).page ∧ 1 ≤ (ops.foldl applyQueryOp s).limit := by
  induction ops generalizing s with
  | nil => exact ⟨hp, hl⟩
  | cons op rest ih =>
      cases op with
      | setPage a =>
          exact ih (applySetPage a s) (sanitize_allowZero_nonneg _ 1 (by norm_num)) hl
      | setLimit a =>
          exact ih (applySetLimit a s) hp (sanitize_noZero_pos _ 20 (by norm_num))

/-- C2 (amended): along any sequence of `setPage`/`setLimit` calls the
page stays ≥ 0 (zero is reachable: the page sanitizer passes
`allowZero: true`) and the limit stays ≥ 1; a non-finite input yields the
fallback (`1` for page, `20` for limit); an input flooring to a negative
value yields the page fallback, one flooring to ≤ 0 yields the limit
fallback; and a finite input surviving the bound check is floored. -/
theorem query_state_sanitization (ip il : ENum) (en : Bool) (ops : List QueryOp) :
    (0 ≤ (ops.foldl applyQueryOp (initState ip il en)).page ∧
      1 ≤ (ops.foldl applyQueryOp (initState ip il en)).limit) ∧
    (∀ v : ENum, ∀ fb : ℤ, ∀ az : Bool,
      v.isFinite = false → sanitizePositiveInteger v fb az = fb) ∧
    (∀ q : ℚ, ∀ fb : ℤ, ⌊q⌋ ≤ 0 → sanitizePositiveInteger (.fin q) fb false = fb) ∧
    (∀ q : ℚ, ∀ fb : ℤ, ⌊q⌋ < 0 → sanitizePositiveInteger (.fin q) fb true = fb) ∧
    (∀ q : ℚ, ∀ fb : ℤ, 0 ≤ ⌊q⌋ → sanitizePositiveInteger (.fin q) fb true = ⌊q⌋) ∧
    (∀ q : ℚ, ∀ fb : ℤ, 0 < ⌊q⌋ → sanitizePositiveInteger (.fin q) fb false = ⌊q⌋) := by
  refine ⟨?_, ?_, ?_, ?_, ?_, ?_⟩
  · exact queryOps_bounds ops (initState ip il en)
      (sanitize_allowZero_nonneg _ 1 (by norm_num))
      (sanitize_noZero_pos _ 20 (by norm_num))
  · intro v fb az hv
    cases v <;> simp_all [ENum.isFinite, sanitizePositiveInteger]
  · intro q fb h
    rw [sanitize_fin_noZero]
    split <;> omega
  · intro q fb h
    rw [sanitize_fin_allowZero]
    split <;> omega
  · intro q fb h
    rw [sanitize_fin_allowZero]
    split <;> omega
  · intro q fb h
    rw [sanitize_fin_noZero]
    split <;> omega

/-- Witness for the amended C2 at concrete inputs. -/
theorem query_state_sanitization_witness :
    (0 ≤ (([QueryOp.setPage (.value (.fin 0))]).foldl applyQueryOp
        (initState (.fin 1) (.fin 20) true)).page) ∧
    sanitizePositiveInteger .nan 1 true = 1 ∧
    sanitizePositiveInteger (.fin (-3)) 1 true = 1 ∧
    sanitizePositiveInteger (.fin 0) 20 false = 20 ∧
    sanitizePositiveInteger (.fin (5/2)) 1 true = 2 := by
  have h := query_state_sanitization (.fin 1) (.fin 20) true
    [QueryOp.setPage (.value (.fin 0))]
  refine ⟨h.1.1, h.2.1 .nan 1 true rfl, h.2.2.2.1 (-3) 1 (by norm_num),
    h.2.2.1 0 20 (by norm_num), ?_⟩
  have h52 := h.2.2.2.2.1 (5/2) 1 (by norm_num)
  rw [h52]
  norm_num

/-! ## C3: stale-while-error policy -/

/-- C3: a non-cancellation rejection stores the thrown error and leaves
`data` and `meta` at their last known-good values; a successful completion
of the current (unaborted) request clears `error`. -/
theorem error_policy_stale_while_error (s : CoordinatorState) (id : ℕ) (wl : Bool)
    (e : JSError) (resp : SensorReadingsResponse) (hname : e.name ≠ "AbortError") :
    ((completeFetch id wl (.failure e) s).1.error = some e ∧
      (completeFetch id wl (.failure e) s).1.data = s.data ∧
      (completeFetch id wl (.failure e) s).1.meta = s.meta) ∧
    (s.currentId = some id → id ∉ s.aborted →
      (completeFetch id wl (.success resp) s).1.error = none) := by
  constructor
  · unfold completeFetch
    dsimp only
    rw [if_neg hname]
    obtain ⟨hd, hm, he, -⟩ :=
      finallyStep_preserves id wl { s with error := some e }
    exact ⟨he, hd, hm⟩
  · intro hcur hab
    unfold completeFetch
    dsimp only
    rw [if_neg (by simp [hcur, hab])]
    exact (finallyStep_preserves id wl
      { s with data := resp.data, meta := resp.meta, error := none }).2.2.1

/-- Witness for C3: an HTTP-failure completion of the current loading
request stores the error and keeps the (empty) first-load data; a later
successful completion clears it. -/
theorem error_policy_stale_while_error_witness :
    (completeFetch 0 true (.failure ⟨"Error", "Failed to fetch sensor readings: 500 Internal Server Error"⟩)
        (startFetch 0 true (initState (.fin 1) (.fin 20) true))).1.error =
      some ⟨"Error", "Failed to fetch sensor readings: 500 Internal Server Error"⟩ ∧
    (completeFetch 0 true (.success ⟨[], none⟩)
        (startFetch 0 true (initState (.fin 1) (.fin 20) true))).1.error = none := by
  have h := error_policy_stale_while_error
    (startFetch 0 true (initState (.fin 1) (.fin 20) true)) 0 true
    ⟨"Error", "Failed to fetch sensor readings: 500 Internal Server Error"⟩
    ⟨[], none⟩ (by decide)
  exact ⟨h.1.1, h.2 (by decide) (by decide)⟩

/-! ## C4: the `refetch` contract -/

/-- The `finally` block of a background request never touches
`isLoading`. -/
lemma finallyStep_isLoading_false (id : ℕ) (s : CoordinatorState) :
    (finallyStep id false s).isLoading = s.isLoading := by
  unfold finallyStep
  dsimp only
  rw [if_neg Bool.false_ne_true]
  split <;> rfl

/-- C4: `refetch` issues a background request for the current page and
limit (`withLoading: false`); neither phase of a background request
touches `isLoading`; the call resolves with the payload exactly when the
request succeeded as the still-current, unaborted request, and resolves
with `null` on every rejection. -/
theorem refetch_contract (s s' : CoordinatorState) (id : ℕ) (outcome : FetchOutcome)
    (resp : SensorReadingsResponse) :
    (refetchRequest s).page = s.page ∧ (refetchRequest s).limit = s.limit ∧
    (refetchRequest s).withLoading = false ∧
    (startFetch id false s).isLoading = s.isLoading ∧
    (completeFetch id false outcome s').1.isLoading = s'.isLoading ∧
    ((completeFetch id false outcome s').2 = some resp ↔
      outcome = .success resp ∧ id ∉ s'.aborted ∧ s'.currentId = some id) ∧
    (∀ e, outcome = .failure e → (completeFetch id false outcome s').2 = none) := by
  refine ⟨rfl, rfl, rfl, ?_, ?_, ?_, ?_⟩
  · unfold startFetch
    cases s.currentId <;> rfl
  · cases outcome with
    | success r =>
        unfold completeFetch
        dsimp only
        split <;> exact finallyStep_isLoading_false _ _
    | failure e =>
        unfold completeFetch
        dsimp only
        split <;> exact finallyStep_isLoading_false _ _
  · cases outcome with
    | success r =>
        unfold completeFetch
        dsimp only
        by_cases hg : id ∈ s'.aborted ∨ s'.currentId ≠ some id
        · rw [if_pos hg]
          constructor
          · intro hfalse
            simp at hfalse
          · rintro ⟨-, hab, hcur⟩
            exact absurd hg (by simp [hab, hcur])
        · rw [if_neg hg]
          push_neg at hg
          simp [hg.1, hg.2, FetchOutcome.success.injEq, eq_comm]
    | failure e =>
        unfold completeFetch
        dsimp only
        constructor
        · intro hsome
          split at hsome <;> simp at hsome
        · rintro ⟨hr, -, -⟩
          cases hr
  · intro e he
    subst he
    unfold completeFetch
    dsimp only
    split <;> rfl

/-- Witness for C4 at a concrete successful background refetch. -/
theorem refetch_contract_witness :
    (completeFetch 0 false (.success ⟨[], none⟩)
        (startFetch 0 false (initState (.fin 1) (.fin 20) true))).2 = some ⟨[], none⟩ := by
  exact (refetch_contract (initState (.fin 1) (.fin 20) true)
      (startFetch 0 false (initState (.fin 1) (.fin 20) true)) 0
      (.success ⟨[], none⟩) ⟨[], none⟩).2.2.2.2.2.1.mpr ⟨rfl, by decide, by decide⟩

/-! ## C5: cancellation signal never sets `error` -/

/-- C5: a completion whose rejection is named `"AbortError"` leaves the
`error` field exactly as it was. -/
theorem abort_outcome_never_sets_error (s : CoordinatorState) (id : ℕ) (wl : Bool)
    (e : JSError) (h : e.name = "AbortError") :
    (completeFetch id wl (.failure e) s).1.error = s.error := by
  unfold completeFetch
  dsimp only
  rw [if_pos h]
  exact (finallyStep_preserves id wl s).2.2.1

/-- Witness for C5 at a concrete aborted request. -/
theorem abort_outcome_never_sets_error_witness :
    (completeFetch 0 true (.failure ⟨"AbortError", "The user aborted a request."⟩)
        (startFetch 0 true (initState (.fin 1) (.fin 20) true))).1.error = none := by
  exact abort_outcome_never_sets_error
    (startFetch 0 true (initState (.fin 1) (.fin 20) true)) 0 true
    ⟨"AbortError", "The user aborted a request."⟩ rfl

/-! ## C6: transport failure characterization -/

/-- Spec-side: "the HTTP success range" (2xx). -/
def specInSuccessRange (status : ℕ) : Prop := 200 ≤ status ∧ status ≤ 299

instance (status : ℕ) : Decidable (specInSuccessRange status) :=
  inferInstanceAs (Decidable (200 ≤ status ∧ status ≤ 299))

/-- Spec-side: "the decoded body is missing, its `data` field is not a
sequence, or its `meta` field is not an object".  A body is missing when
the JSON decode step produced nothing or a falsy value; "sequence" is a JS
array; "object" follows JS `typeof` semantics, under which `null` and
arrays count as objects. -/
def specBadShape (resp : TransportResponse) : Prop :=
  resp.body = none ∨
    ∃ p, resp.body = some p ∧
      (p.truthy = false ∨ (p.getField "data").isArray = false ∨
        (p.getField "meta").typeofIsObject = false)

lemma responseOk_iff (status : ℕ) :
    responseOk status = true ↔ specInSuccessRange status := by
  simp [responseOk, specInSuccessRange, Nat.ble_eq, Bool.and_eq_true]

/-- C6: `fetchSensorReadings` rejects exactly when the status is outside
the success range — with an error whose message carries the status code
and status text — or when the decoded body is missing, `data` is not a
sequence, or `meta` is not a (`typeof`-)object; otherwise it resolves with
the decoded payload. -/
theorem fetchSensorReadings_failure_characterization (resp : TransportResponse) :
    ((∃ e, fetchSensorReadings resp = .error e) ↔
      ¬specInSuccessRange resp.status ∨ specBadShape resp) ∧
    (specInSuccessRange resp.status → ¬specBadShape resp →
      ∃ p, resp.body = some p ∧ fetchSensorReadings resp = .ok p) ∧
    (¬specInSuccessRange resp.status →
      fetchSensorReadings resp =
        .error ⟨"Error", "Failed to fetch sensor readings: " ++ toString resp.status
          ++ " " ++ resp.statusText⟩) := by
  by_cases hok : specInSuccessRange resp.status
  · have hb : (!responseOk resp.status) = false := by
      simp [Bool.not_eq_true', (responseOk_iff resp.status).mpr hok]
    refine ⟨?_, ?_, fun h => absurd hok h⟩
    · unfold fetchSensorReadings
      rw [hb, if_neg Bool.false_ne_true]
      cases hbody : resp.body with
      | none =>
          simp [specBadShape, hbody, hok]
      | some p =>
          dsimp only
          by_cases hshape : p.truthy = false ∨ (p.getField "data").isArray = false ∨
              (p.getField "meta").typeofIsObject = false
          · have : (!p.truthy || !(p.getField "data").isArray
                || !(p.getField "meta").typeofIsObject) = true := by
              rcases hshape with h | h | h <;> simp [h]
            rw [this]
            simp [specBadShape, hbody, hok, hshape]
          · push_neg at hshape
            have h1 : p.truthy = true := by
              cases hp : p.truthy with
              | false => exact absurd hp hshape.1
              | true => rfl
            have h2 : (p.getField "data").isArray = true := by
              cases hp : (p.getField "data").isArray with
              | false => exact absurd hp hshape.2.1
              | true => rfl
            have h3 : (p.getField "meta").typeofIsObject = true := by
              cases hp : (p.getField "meta").typeofIsObject with
              | false => exact absurd hp hshape.2.2
              | true => rfl
            rw [show (!p.truthy || !(p.getField "data").isArray
                || !(p.getField "meta").typeofIsObject) = false by
              simp [h1, h2, h3]]
            rw [if_neg Bool.false_ne_true]
            constructor
            · rintro ⟨e, he⟩
              cases he
            · rintro (h | h)
              · exact absurd hok h
              · rcases h with h | ⟨p', hp', hbad⟩
                · rw [hbody] at h
                  cases h
                · rw [hbody] at hp'
                  cases hp'
                  rcases hbad with h | h | h
                  · rw [h1] at h
                    cases h
                  · rw [h2] at h
                    cases h
                  · rw [h3] at h
                    cases h
    · intro hgood hbad
      unfold fetchSensorReadings
      rw [hb, if_neg Bool.false_ne_true]
      cases hbody : resp.body with
      | none => exact absurd (Or.inl hbody) hbad
      | some p =>
          dsimp only
          refine ⟨p, rfl, ?_⟩
          have hsh : ¬(p.truthy = false ∨ (p.getField "data").isArray = false ∨
              (p.getField "meta").typeofIsObject = false) :=
            fun h => hbad (Or.inr ⟨p, hbody, h⟩)
          push_neg at hsh
          rw [show (!p.truthy || !(p.getField "data").isArray
              || !(p.getField "meta").typeofIsObject) = false by
            simp only [Bool.or_eq_false_iff, Bool.not_eq_true']
            refine ⟨⟨?_, ?_⟩, ?_⟩
            · cases hp : p.truthy with
              | false => exact absurd hp hsh.1
              | true => simp
            · cases hp : (p.getField "data").isArray with
              | false => exact absurd hp hsh.2.1
              | true => simp
            · cases hp : (p.getField "meta").typeofIsObject with
              | false => exact absurd hp hsh.2.2
              | true => simp]
          rfl
  · have hb : (!responseOk resp.status) = true := by
      simp only [Bool.not_eq_true']
      cases hr : responseOk resp.status with
      | false => rfl
      | true => exact absurd ((responseOk_iff resp.status).mp hr) hok
    have herr : fetchSensorReadings resp =
        .error ⟨"Error", "Failed to fetch sensor readings: " ++ toString resp.status
          ++ " " ++ resp.statusText⟩ := by
      unfold fetchSensorReadings
      rw [hb]
      rfl
    exact ⟨⟨fun _ => Or.inl hok, fun _ => ⟨_, herr⟩⟩,
      fun h => absurd h hok, fun _ => herr⟩

/-- Witness for C6: a 500 rejects with the status in the message; a
well-shaped 200 body resolves with the payload. -/
theorem fetchSensorReadings_characterization_witness :
    fetchSensorReadings ⟨500, "Internal Server Error", none⟩ =
      .error ⟨"Error", "Failed to fetch sensor readings: 500 Internal Server Error"⟩ ∧
    ∃ p, (⟨200, "OK", some (.obj [("data", .arr []), ("meta", .obj [])])⟩ :
        TransportResponse).body = some p ∧
      fetchSensorReadings ⟨200, "OK", some (.obj [("data", .arr []), ("meta", .obj [])])⟩ =
        .ok p := by
  constructor
  · exact (fetchSensorReadings_failure_characterization
      ⟨500, "Internal Server Error", none⟩).2.2 (by decide)
  · exact (fetchSensorReadings_failure_characterization
      ⟨200, "OK", some (.obj [("data", .arr []), ("meta", .obj [])])⟩).2.1
      (by decide)
      (by
        rintro (h | ⟨p, hp, hbad⟩)
        · cases h
        · cases hp
          rcases hbad with h | h | h <;> cases h)

/-! ## C7: query-parameter attachment -/

/-- C7 counterexample: `Infinity` is not a finite number, yet the `page`
query parameter is attached — the source guards with `!Number.isNaN`, not
`Number.isFinite`. -/
theorem infinity_page_param_attached :
    ENum.isFinite .posInf = false ∧
    (buildSearchParams (some .posInf) (some (.fin 20))).map Prod.fst =
      ["page", "limit"] := ⟨rfl, rfl⟩

/-- C7 (amended): the `page` (resp. `limit`) query parameter is attached
iff the argument — after TS defaulting of an absent argument to `1`
(resp. `20`) — is not `NaN`; a non-finite but non-`NaN` argument such as
`Infinity` is still attached. -/
theorem search_params_iff_not_nan (pageArg limitArg : Option ENum) :
    (("page" ∈ (buildSearchParams pageArg limitArg).map Prod.fst) ↔
      (pageArg.getD (.fin 1)).isNaN = false) ∧
    (("limit" ∈ (buildSearchParams pageArg limitArg).map Prod.fst) ↔
      (limitArg.getD (.fin 20)).isNaN = false) := by
  unfold buildSearchParams
  cases hp : (pageArg.getD (.fin 1)).isNaN <;>
    cases hl : (limitArg.getD (.fin 20)).isNaN <;>
      simp [hp, hl]

/-! ## C9: empty window -/

/-- C9: the aggregator applied to the empty sequence returns all-null
statistics. -/
theorem computeStatistics_empty (parse : String → Option ℤ) :
    computeStatistics parse [] =
      { average := none, min := none, max := none, range := none, trend := none,
        latest := none, earliest := none, lastUpdated := none } := rfl

/-! ## C8: strict comparisons make ties first-seen-wins -/

/-- An unparseable timestamp leaves the latest-candidate fields alone. -/
lemma stepReading_latest_none (parse : String → Option ℤ) (acc : StatsAcc)
    (r : SensorReading) (hp : parse r.timestamp = none) :
    (stepReading parse acc r).latestTime = acc.latestTime ∧
    (stepReading parse acc r).latest = acc.latest := by
  obtain ⟨lat, ear, ltime, etime, asum, acount, amin, amax⟩ := acc
  unfold stepReading moistureFold
  rw [hp]
  cases r.moisture <;> simp

/-- A parsed time strictly beating the running maximum installs this
reading as the latest candidate. -/
lemma stepReading_latest_beat (parse : String → Option ℤ) (acc : StatsAcc)
    (r : SensorReading) (t : ℤ) (hp : parse r.timestamp = some t)
    (hg : gtLatest t acc.latestTime = true) :
    (stepReading parse acc r).latestTime = some t ∧
    (stepReading parse acc r).latest = some r := by
  obtain ⟨lat, ear, ltime, etime, asum, acount, amin, amax⟩ := acc
  unfold stepReading moistureFold
  rw [hp]
  cases r.moisture <;> simp_all <;>
    cases ltEarliest t etime <;> simp

/-- A parsed time not strictly beating the running maximum leaves the
latest-candidate fields alone. -/
lemma stepReading_latest_keep (parse : String → Option ℤ) (acc : StatsAcc)
    (r : SensorReading) (t : ℤ) (hp : parse r.timestamp = some t)
    (hg : gtLatest t acc.latestTime = false) :
    (stepReading parse acc r).latestTime = acc.latestTime ∧
    (stepReading parse acc r).latest = acc.latest := by
  obtain ⟨lat, ear, ltime, etime, asum, acount, amin, amax⟩ := acc
  unfold stepReading moistureFold
  rw [hp]
  cases r.moisture <;> simp_all <;>
    cases ltEarliest t etime <;> simp

/-- An unparseable timestamp leaves the earliest-candidate fields
alone. -/
lemma stepReading_earliest_none (parse : String → Option ℤ) (acc : StatsAcc)
    (r : SensorReading) (hp : parse r.timestamp = none) :
    (stepReading parse acc r).earliestTime = acc.earliestTime ∧
    (stepReading parse acc r).earliest = acc.earliest := by
  obtain ⟨lat, ear, ltime, etime, asum, acount, amin, amax⟩ := acc
  unfold stepReading moistureFold
  rw [hp]
  cases r.moisture <;> simp

/-- A parsed time strictly below the running minimum installs this reading
as the earliest candidate. -/
lemma stepReading_earliest_beat (parse : String → Option ℤ) (acc : StatsAcc)
    (r : SensorReading) (t : ℤ) (hp : parse r.timestamp = some t)
    (hg : ltEarliest t acc.earliestTime = true) :
    (stepReading parse acc r).earliestTime = some t ∧
    (stepReading parse acc r).earliest = some r := by
  obtain ⟨lat, ear, ltime, etime, asum, acount, amin, amax⟩ := acc
  unfold stepReading moistureFold
  rw [hp]
  cases r.moisture <;> simp_all <;>
    cases gtLatest t ltime <;> simp [hg]

/-- A parsed time not strictly below the running minimum leaves the
earliest-candidate fields alone. -/
lemma stepReading_earliest_keep (parse : String → Option ℤ) (acc : StatsAcc)
    (r : SensorReading) (t : ℤ) (hp : parse r.timestamp = some t)
    (hg : ltEarliest t acc.earliestTime = false) :
    (stepReading parse acc r).earliestTime = acc.earliestTime ∧
    (stepReading parse acc r).earliest = acc.earliest := by
  obtain ⟨lat, ear, ltime, etime, asum, acount, amin, amax⟩ := acc
  unfold stepReading moistureFold
  rw [hp]
  cases r.moisture <;> simp_all <;>
    cases gtLatest t ltime <;> simp [hg]

lemma gtLatest_mono (t m : ℤ) (T : Option ℤ) (h : gtLatest t T = true) (htm : t ≤ m) :
    gtLatest m T = true := by
  cases T <;> simp [gtLatest] at h ⊢ <;> omega

lemma gtLatest_of_false (t : ℤ) (T : Option ℤ) (h : gtLatest t T = false) :
    ∃ a, T = some a ∧ t ≤ a := by
  cases T with
  | none => cases h
  | some a =>
      refine ⟨a, rfl, ?_⟩
      simp [gtLatest] at h
      omega

lemma ltEarliest_mono (t m : ℤ) (T : Option ℤ) (h : ltEarliest t T = true)
    (htm : m ≤ t) : ltEarliest m T = true := by
  cases T <;> simp [ltEarliest] at h ⊢ <;> omega

lemma ltEarliest_of_false (t : ℤ) (T : Option ℤ) (h : ltEarliest t T = false) :
    ∃ a, T = some a ∧ a ≤ t := by
  cases T with
  | none => cases h
  | some a =>
      refine ⟨a, rfl, ?_⟩
      simp [ltEarliest] at h
      omega

lemma maxTime?_cons (parse : String → Option ℤ) (r : SensorReading)
    (rest : List SensorReading) :
    maxTime? parse (r :: rest) =
      (match parse r.timestamp, maxTime? parse rest with
        | none, m => m
        | some t, none => some t
        | some t, some m => some (Max.max t m)) := rfl

lemma minTime?_cons (parse : String → Option ℤ) (r : SensorReading)
    (rest : List SensorReading) :
    minTime? parse (r :: rest) =
      (match parse r.timestamp, minTime? parse rest with
        | none, m => m
        | some t, none => some t
        | some t, some m => some (Min.min t m)) := rfl

/-- The fold retains, as `latest`, exactly the *first* reading attaining
the maximal parsed time that strictly beats the starting accumulator. -/
lemma foldl_latest_char (parse : String → Option ℤ) (l : List SensorReading)
    (acc : StatsAcc) :
    ((l.foldl (stepReading parse) acc).latestTime,
      (l.foldl (stepReading parse) acc).latest) =
      (match maxTime? parse l with
        | none => (acc.latestTime, acc.latest)
        | some m =>
            if gtLatest m acc.latestTime then
              (some m, l.find? (fun r => decide (parse r.timestamp = some m)))
            else (acc.latestTime, acc.latest)) := by
  induction l generalizing acc with
  | nil => rfl
  | cons r rest ih =>
      rw [List.foldl_cons, ih (stepReading parse acc r)]
      cases hp : parse r.timestamp with
      | none =>
          obtain ⟨hT, hC⟩ := stepReading_latest_none parse acc r hp
          have hmt : maxTime? parse (r :: rest) = maxTime? parse rest := by
            rw [maxTime?_cons, hp]
          rw [hmt, hT, hC]
          cases hq : maxTime? parse rest with
          | none => rfl
          | some m =>
              have hf : List.find? (fun x => decide (parse x.timestamp = some m))
                  (r :: rest) =
                  List.find? (fun x => decide (parse x.timestamp = some m)) rest :=
                List.find?_cons_of_neg _ (by simp [hp])
              cases hg : gtLatest m acc.latestTime <;> simp [hf]
      | some t =>
          have hmt : maxTime? parse (r :: rest) =
              (match maxTime? parse rest with
                | none => some t
                | some m => some (Max.max t m)) := by
            rw [maxTime?_cons, hp]
            cases maxTime? parse rest <;> rfl
          cases hq : maxTime? parse rest with
          | none =>
              rw [hq] at hmt
              rw [hmt]
              cases hg : gtLatest t acc.latestTime with
              | true =>
                  obtain ⟨hT, hC⟩ := stepReading_latest_beat parse acc r t hp hg
                  rw [hT, hC]
                  have hf : List.find? (fun x => decide (parse x.timestamp = some t))
                      (r :: rest) = some r :=
                    List.find?_cons_of_pos _ (by simp [hp])
                  simp [hg, hf]
              | false =>
                  obtain ⟨hT, hC⟩ := stepReading_latest_keep parse acc r t hp hg
                  rw [hT, hC]
                  simp [hg]
          | some m =>
              rw [hq] at hmt
              rw [hmt]
              dsimp only
              cases hg : gtLatest t acc.latestTime with
              | true =>
                  obtain ⟨hT, hC⟩ := stepReading_latest_beat parse acc r t hp hg
                  rw [hT, hC]
                  by_cases htm : t < m
                  · have hmax : Max.max t m = m := max_eq_right htm.le
                    have hgm : gtLatest m (some t) = true := by
                      simp [gtLatest, htm]
                    have hgm2 : gtLatest m acc.latestTime = true :=
                      gtLatest_mono t m acc.latestTime hg htm.le
                    have hf : List.find? (fun x => decide (parse x.timestamp = some m))
                        (r :: rest) =
                        List.find? (fun x => decide (parse x.timestamp = some m)) rest :=
                      List.find?_cons_of_neg _ (by simp [hp]; omega)
                    rw [hmax]
                    simp [hgm, hgm2, hf]
                  · have hmax : Max.max t m = t := max_eq_left (by omega)
                    have hgm : gtLatest m (some t) = false := by
                      simp [gtLatest]
                      omega
                    have hf : List.find? (fun x => decide (parse x.timestamp = some t))
                        (r :: rest) = some r :=
                      List.find?_cons_of_pos _ (by simp [hp])
                    rw [hmax]
                    simp [hg, hgm, hf]
              | false =>
                  obtain ⟨hT, hC⟩ := stepReading_latest_keep parse acc r t hp hg
                  rw [hT, hC]
                  obtain ⟨a, hTa, hta⟩ := gtLatest_of_false t acc.latestTime hg
                  rw [hTa]
                  by_cases ham : a < m
                  · have hmax : Max.max t m = m := max_eq_right (by omega)
                    have hgm : gtLatest m (some a) = true := by simp [gtLatest, ham]
                    have hf : List.find? (fun x => decide (parse x.timestamp = some m))
                        (r :: rest) =
                        List.find? (fun x => decide (parse x.timestamp = some m)) rest :=
                      List.find?_cons_of_neg _ (by simp [hp]; omega)
                    rw [hmax]
                    simp [hgm, hf]
                  · have hmax1 : gtLatest (Max.max t m) (some a) = false := by
                      simp [gtLatest]
                      omega
                    have hgm : gtLatest m (some a) = false := by
                      simp [gtLatest]
                      omega
                    simp [hmax1, hgm]

/-- The fold retains, as `earliest`, exactly the *first* reading attaining
the minimal parsed time that strictly beats the starting accumulator. -/
lemma foldl_earliest_char (parse : String → Option ℤ) (l : List SensorReading)
    (acc : StatsAcc) :
    ((l.foldl (stepReading parse) acc).earliestTime,
      (l.foldl (stepReading parse) acc).earliest) =
      (match minTime? parse l with
        | none => (acc.earliestTime, acc.earliest)
        | some m =>
            if ltEarliest m acc.earliestTime then
              (some m, l.find? (fun r => decide (parse r.timestamp = some m)))
            else (acc.earliestTime, acc.earliest)) := by
  induction l generalizing acc with
  | nil => rfl
  | cons r rest ih =>
      rw [List.foldl_cons, ih (stepReading parse acc r)]
      cases hp : parse r.timestamp with
      | none =>
          obtain ⟨hT, hC⟩ := stepReading_earliest_none parse acc r hp
          have hmt : minTime? parse (r :: rest) = minTime? parse rest := by
            rw [minTime?_cons, hp]
          rw [hmt, hT, hC]
          cases hq : minTime? parse rest with
          | none => rfl
          | some m =>
              have hf : List.find? (fun x => decide (parse x.timestamp = some m))
                  (r :: rest) =
                  List.find? (fun x => decide (parse x.timestamp = some m)) rest :=
                List.find?_cons_of_neg _ (by simp [hp])
              cases hg : ltEarliest m acc.earliestTime <;> simp [hf]
      | some t =>
          have hmt : minTime? parse (r :: rest) =
              (match minTime? parse rest with
                | none => some t
                | some m => some (Min.min t m)) := by
            rw [minTime?_cons, hp]
            cases minTime? parse rest <;> rfl
          cases hq : minTime? parse rest with
          | none =>
              rw [hq] at hmt
              rw [hmt]
              cases hg : ltEarliest t acc.earliestTime with
              | true =>
                  obtain ⟨hT, hC⟩ := stepReading_earliest_beat parse acc r t hp hg
                  rw [hT, hC]
                  have hf : List.find? (fun x => decide (parse x.timestamp = some t))
                      (r :: rest) = some r :=
                    List.find?_cons_of_pos _ (by simp [hp])
                  simp [hg, hf]
              | false =>
                  obtain ⟨hT, hC⟩ := stepReading_earliest_keep parse acc r t hp hg
                  rw [hT, hC]
                  simp [hg]
          | some m =>
              rw [hq] at hmt
              rw [hmt]
              dsimp only
              cases hg : ltEarliest t acc.earliestTime with
              | true =>
                  obtain ⟨hT, hC⟩ := stepReading_earliest_beat parse acc r t hp hg
                  rw [hT, hC]
                  by_cases htm : m < t
                  · have hmin : Min.min t m = m := min_eq_right htm.le
                    have hgm : ltEarliest m (some t) = true := by
                      simp [ltEarliest, htm]
                    have hgm2 : ltEarliest m acc.earliestTime = true :=
                      ltEarliest_mono t m acc.earliestTime hg htm.le
                    have hf : List.find? (fun x => decide (parse x.timestamp = some m))
                        (r :: rest) =
                        List.find? (fun x => decide (parse x.timestamp = some m)) rest :=
                      List.find?_cons_of_neg _ (by simp [hp]; omega)
                    rw [hmin]
                    simp [hgm, hgm2, hf]
                  · have hmin : Min.min t m = t := min_eq_left (by omega)
                    have hgm : ltEarliest m (some t) = false := by
                      simp [ltEarliest]
                      omega
                    have hf : List.find? (fun x => decide (parse x.timestamp = some t))
                        (r :: rest) = some r :=
                      List.find?_cons_of_pos _ (by simp [hp])
                    rw [hmin]
                    simp [hg, hgm, hf]
              | false =>
                  obtain ⟨hT, hC⟩ := stepReading_earliest_keep parse acc r t hp hg
                  rw [hT, hC]
                  obtain ⟨a, hTa, hta⟩ := ltEarliest_of_false t acc.earliestTime hg
                  rw [hTa]
                  by_cases ham : m < a
                  · have hmin : Min.min t m = m := min_eq_right (by omega)
                    have hgm : ltEarliest m (some a) = true := by
                      simp [ltEarliest, ham]
                    have hf : List.find? (fun x => decide (parse x.timestamp = some m))
                        (r :: rest) =
                        List.find? (fun x => decide (parse x.timestamp = some m)) rest :=
                      List.find?_cons_of_neg _ (by simp [hp]; omega)
                    rw [hmin]
                    simp [hgm, hf]
                  · have hmin1 : ltEarliest (Min.min t m) (some a) = false := by
                      simp [ltEarliest]
                      omega
                    have hgm : ltEarliest m (some a) = false := by
                      simp [ltEarliest]
                      omega
                    simp [hmin1, hgm]

lemma computeStatistics_latest_eq (parse : String → Option ℤ)
    (data : List SensorReading) :
    (computeStatistics parse data).latest =
      (data.foldl (stepReading parse) initAcc).latest := rfl

lemma computeStatistics_earliest_eq (parse : String → Option ℤ)
    (data : List SensorReading) :
    (computeStatistics parse data).earliest =
      (data.foldl (stepReading parse) initAcc).earliest := rfl

/-- C8: the retained `latest` (resp. `earliest`) candidate is the *first*
reading, in iteration order, attaining the maximal (resp. minimal) parsed
timestamp — both comparisons are strict, so a later reading with an equal
parsed timestamp never replaces the candidate.  In particular, for two
readings with identical parsed timestamps the first is retained as both
the latest and the earliest candidate. -/
theorem computeStatistics_tie_first_seen (parse : String → Option ℤ)
    (data : List SensorReading) :
    ((computeStatistics parse data).latest = firstLatest parse data ∧
      (computeStatistics parse data).earliest = firstEarliest parse data) ∧
    (∀ (r s : SensorReading) (t : ℤ), parse r.timestamp = some t →
      parse s.timestamp = some t →
      (computeStatistics parse [r, s]).latest = some r ∧
      (computeStatistics parse [r, s]).earliest = some r) := by
  have hchar : ∀ l : List SensorReading,
      (computeStatistics parse l).latest = firstLatest parse l ∧
      (computeStatistics parse l).earliest = firstEarliest parse l := by
    intro l
    constructor
    · rw [computeStatistics_latest_eq]
      have h := congrArg Prod.snd (foldl_latest_char parse l initAcc)
      dsimp only at h
      rw [h]
      unfold firstLatest
      cases hq : maxTime? parse l with
      | none => rfl
      | some m =>
          have : gtLatest m initAcc.latestTime = true := rfl
          simp [this]
    · rw [computeStatistics_earliest_eq]
      have h := congrArg Prod.snd (foldl_earliest_char parse l initAcc)
      dsimp only at h
      rw [h]
      unfold firstEarliest
      cases hq : minTime? parse l with
      | none => rfl
      | some m =>
          have : ltEarliest m initAcc.earliestTime = true := rfl
          simp [this]
  refine ⟨hchar data, ?_⟩
  intro r s t hr hs
  have h2 := hchar [r, s]
  have hmax : maxTime? parse [r, s] = some t := by
    have h0 : maxTime? parse ([] : List SensorReading) = none := rfl
    rw [maxTime?_cons, maxTime?_cons, hr, hs, h0]
    dsimp only
    rw [max_self]
  have hmin : minTime? parse [r, s] = some t := by
    have h0 : minTime? parse ([] : List SensorReading) = none := rfl
    rw [minTime?_cons, minTime?_cons, hr, hs, h0]
    dsimp only
    rw [min_self]
  have hfind : List.find? (fun x => decide (parse x.timestamp = some t)) [r, s] =
      some r := List.find?_cons_of_pos _ (by simp [hr])
  constructor
  · rw [h2.1]
    unfold firstLatest
    rw [hmax]
    exact hfind
  · rw [h2.2]
    unfold firstEarliest
    rw [hmin]
    exact hfind

/-- Witness for C8 at two concrete readings with equal parsed
timestamps. -/
theorem computeStatistics_tie_first_seen_witness :
    (computeStatistics
        (fun str => if str = "a" then some 5 else if str = "b" then some 5 else none)
        [⟨"a", .fin 1⟩, ⟨"b", .fin 2⟩]).latest = some ⟨"a", .fin 1⟩ ∧
    (computeStatistics
        (fun str => if str = "a" then some 5 else if str = "b" then some 5 else none)
        [⟨"a", .fin 1⟩, ⟨"b", .fin 2⟩]).earliest = some ⟨"a", .fin 1⟩ :=
  (computeStatistics_tie_first_seen
      (fun str => if str = "a" then some 5 else if str = "b" then some 5 else none)
      [⟨"a", .fin 1⟩, ⟨"b", .fin 2⟩]).2
    ⟨"a", .fin 1⟩ ⟨"b", .fin 2⟩ 5 (by decide) (by decide)

end Karsu
